import Mathlib

/-!
# Verification of the ceiling-smasher pipeline core

A shallow embedding, in Lean 4, of the orchestration core of the
`ceiling-smasher-ai` repository: the symbol extractor, the rate-limited
remote-call wrapper, the red-team fan-out, the CIO pre-filter (fusion)
step, the `--ai` pipeline of `main.py`, and the scan/score engine.

Modelling conventions:
* Python strings are Lean `String`s; all text processing is done on the
  underlying `List Char` so that concrete evaluations reduce in the kernel.
* Python floats are modelled as exact rationals `ℚ`; a pandas `NaN` cell is
  modelled as `Option.none`, and every comparison against `none` is `false`
  (matching IEEE semantics of comparisons with NaN).
* Remote services, the file system and the market-data source are modelled
  as explicit oracles (functions passed as arguments); an oracle value of
  `Except.error e` models a raised exception whose `str()` is `e`.
* Thread pools (`ThreadPoolExecutor` + `as_completed`) deliver results in a
  nondeterministic completion order; this is modelled by quantifying over an
  arbitrary completion-order list.
-/

namespace CS

/-! ## Character-list text helpers -/

/-- Is `pre` a literal prefix of `l`? (helper for substring search). -/
def isPrefixCh : List Char → List Char → Bool
  | [], _ => true
  | _ :: _, [] => false
  | a :: as, b :: bs => a == b && isPrefixCh as bs

/-- Does `needle` occur contiguously inside `hay`?  Models Python's
`needle in hay` on strings. -/
def containsCh (needle : List Char) : List Char → Bool
  | [] => isPrefixCh needle []
  | c :: t => isPrefixCh needle (c :: t) || containsCh needle t

/-- Python `needle in hay` for `String`s. -/
def strContains (hay needle : String) : Bool :=
  containsCh needle.data hay.data

/-- One step of Python `str.splitlines` (we model `\n`-separated text, which
is the only separator occurring in this code base): accumulate the current
line (reversed in `cur`) until a newline; a trailing newline does not
produce a final empty line. -/
def splitLinesGo (cur : List Char) : List Char → List (List Char)
  | [] => [cur.reverse]
  | c :: rest =>
    if c = '\n' then
      cur.reverse :: (if rest.isEmpty then [] else splitLinesGo [] rest)
    else
      splitLinesGo (c :: cur) rest

/-- Python `str.splitlines` restricted to `\n` separators
(`"".splitlines() == []`). -/
def splitLinesCh : List Char → List (List Char)
  | [] => []
  | c :: rest => splitLinesGo [] (c :: rest)

/-- ASCII uppercase letter, the regex class `[A-Z]`. -/
def isUpperAZ (c : Char) : Bool := 'A' ≤ c && c ≤ 'Z'

/-- ASCII digit, the regex class `\d` (on the ASCII text at hand). -/
def isDigitCh (c : Char) : Bool := '0' ≤ c && c ≤ '9'

/-- The regex class `\s` on the ASCII range (space, tab, newline, carriage
return, vertical tab, form feed). -/
def isSpacePy (c : Char) : Bool :=
  c = ' ' || c = '\t' || c = '\n' || c = '\r' || c = '\x0b' || c = '\x0c'

/-- Consume an optional single character `c` (the regex `c?`, greedy). -/
def optChar (c : Char) : List Char → List Char
  | [] => []
  | x :: xs => if x = c then xs else x :: xs

/-- Drop a maximal run of characters satisfying `p` (a greedy `p*` whose
class is disjoint from what follows, so no backtracking is needed). -/
def dropRun (p : Char → Bool) : List Char → List Char
  | [] => []
  | x :: xs => if p x then dropRun p xs else x :: xs

/-- The capture group `([A-Z]{2,6})`, greedy: up to six uppercase letters,
failing when fewer than two are available.  Returns the capture and the
remaining input. -/
def captureUpper (cs : List Char) : Option (List Char × List Char) :=
  let cap := (cs.takeWhile isUpperAZ).take 6
  if 2 ≤ cap.length then some (cap, cs.drop cap.length) else none

/-! ## Symbol extractor (`ai/analyst.py`, `extract_tickers_from_analysis`)

The three `re.findall` patterns are embedded as deterministic scanners.
Each pattern is a concatenation of character-class pieces whose classes are
pairwise disjoint at every junction, so the greedy match without
backtracking implemented here coincides with Python's backtracking
semantics (the only genuine alternation, `(?:^|\n)`, is tried in Python's
order below). -/

/-- The body of pattern 1 after its `(?:^|\n)` anchor:
`[\*_]*\(?\d+\.\)?\s*[\*_]*\[?([A-Z]{2,6})\]?`. -/
def matchP1core (cs : List Char) : Option (List Char × List Char) :=
  let cs := dropRun (fun c => c = '*' || c = '_') cs
  let cs := optChar '(' cs
  let ds := cs.takeWhile isDigitCh
  if ds.isEmpty then none else
  match cs.drop ds.length with
  | '.' :: cs =>
    let cs := optChar ')' cs
    let cs := dropRun isSpacePy cs
    let cs := dropRun (fun c => c = '*' || c = '_') cs
    let cs := optChar '[' cs
    match captureUpper cs with
    | none => none
    | some (cap, rest) => some (cap, optChar ']' rest)
  | _ => none

/-- Pattern 1, `(?:^|\n)[\*_]*\(?\d+\.\)?\s*[\*_]*\[?([A-Z]{2,6})\]?`,
attempted at one position.  `atStart` records whether the zero-width `^`
alternative is available (no `re.MULTILINE`, so only at offset 0); the
`\n` alternative consumes a newline.  Python tries `^` first. -/
def matchP1 (atStart : Bool) (cs : List Char) : Option (List Char × List Char) :=
  let viaNl : Option (List Char × List Char) :=
    match cs with
    | '\n' :: r => matchP1core r
    | _ => none
  if atStart then
    match matchP1core cs with
    | some res => some res
    | none => viaNl
  else viaNl

/-- Pattern 2, `THE (?:LONG|MOONSHOT):?\s*\*?\[?([A-Z]{2,6})\]?\*?`
(case-sensitive), attempted at one position. -/
def matchP2 (_atStart : Bool) (cs : List Char) : Option (List Char × List Char) :=
  match cs with
  | 'T' :: 'H' :: 'E' :: ' ' :: r =>
    let afterWord : Option (List Char) :=
      match r with
      | 'L' :: 'O' :: 'N' :: 'G' :: r2 => some r2
      | 'M' :: 'O' :: 'O' :: 'N' :: 'S' :: 'H' :: 'O' :: 'T' :: r2 => some r2
      | _ => none
    match afterWord with
    | none => none
    | some r2 =>
      let r2 := optChar ':' r2
      let r2 := dropRun isSpacePy r2
      let r2 := optChar '*' r2
      let r2 := optChar '[' r2
      match captureUpper r2 with
      | none => none
      | some (cap, rest) => some (cap, optChar '*' (optChar ']' rest))
  | _ => none

/-- Pattern 3, `\$([A-Z]{2,6})`, attempted at one position. -/
def matchP3 (_atStart : Bool) (cs : List Char) : Option (List Char × List Char) :=
  match cs with
  | '$' :: r => captureUpper r
  | _ => none

/-- `re.findall` driver: try the pattern at each position left to right; on
a match, record the capture and resume after the consumed text (all three
patterns consume at least the two captured characters, so matches are
non-empty and this terminates).  `fuel` bounds the number of scan steps;
`findall` below supplies enough fuel that it is never exhausted. -/
def findallGo (matchFn : Bool → List Char → Option (List Char × List Char)) :
    ℕ → Bool → List Char → List (List Char)
  | 0, _, _ => []
  | fuel + 1, atStart, cs =>
    match matchFn atStart cs with
    | some (cap, rest) => cap :: findallGo matchFn fuel false rest
    | none =>
      match cs with
      | [] => []
      | _ :: t => findallGo matchFn fuel false t

/-- `re.findall(pattern, text)` for one of the three scanners. -/
def findall (matchFn : Bool → List Char → Option (List Char × List Char))
    (cs : List Char) : List (List Char) :=
  findallGo matchFn (cs.length + 1) true cs

/-- The fixed stop-word list of `extract_tickers_from_analysis`. -/
def stopWords : List String :=
  ["THE", "RSI", "USD", "INPUT", "DATA", "AI", "URL", "PDF", "LONG",
   "SHORT", "TO", "AND", "OR", "IF"]

/-- Deduplication worker: keep an element unless it already occurred
(`seen` accumulates the elements kept so far). -/
def dedupFirstGo (seen : List String) : List String → List String
  | [] => []
  | x :: xs =>
    if seen.contains x then dedupFirstGo seen xs
    else x :: dedupFirstGo (x :: seen) xs

/-- `list(set(...))`: deduplication.  CPython's set iteration order is
unspecified; we keep the first occurrence (no claim depends on the order,
only on the underlying set). -/
def dedupFirst (l : List String) : List String := dedupFirstGo [] l

/-- `extract_tickers_from_analysis(text)`: run the three patterns, filter
the captures (strip and upper-casing are identities on `[A-Z]{2,6}`
captures and are therefore omitted), and deduplicate. -/
def extract_tickers_from_analysis (text : String) : List String :=
  let cs := text.data
  let tickers := findall matchP1 cs ++ findall matchP2 cs ++ findall matchP3 cs
  let clean := tickers.filterMap (fun t =>
    let s : String := String.mk t
    if 2 ≤ s.length && !(stopWords.contains s) then some s else none)
  dedupFirst clean

/-! ## Rate-limited remote-call client (`ai/analyst.py`, `_generate_with_log`)

One logical call makes up to `max_retries + 1 = 4` attempts.  The service
is an oracle `att : ℕ → GenAttempt` giving, for each attempt index, its
outcome and its wall-clock duration in seconds; `jitter k` is the value
`random.uniform(0, 1)` drawn before the `k`-th retry sleep.  Durations and
delays are exact rationals. -/

/-- Outcome of one `client.models.generate_content` attempt: a response
text, or a raised exception with the given `str(e)`. -/
inductive GenOutcome where
  | success (text : String)
  | failure (err : String)
deriving DecidableEq

/-- One attempt as seen by the wrapper: its outcome and duration (s). -/
structure GenAttempt where
  outcome : GenOutcome
  duration : ℚ

/-- The `__API_LOG__` record printed at a call's terminal outcome
(`log_entry` in the source; the timestamp is omitted — the model has no
absolute clock origin). -/
structure CallRecord where
  model : String
  requestDigest : String
  status : String
  latencyMs : ℤ
  responseDigest : Option String
  errorDetail : Option String

/-- Everything observable about one `_generate_with_log` call: the backoff
sleeps performed (in order), the records printed, how many attempts were
made, the total elapsed seconds since the first attempt started, and the
result (`Except.error e` models `raise e`). -/
structure GenTrace where
  sleeps : List ℚ
  records : List CallRecord
  attemptsMade : ℕ
  elapsed : ℚ
  result : Except String String

/-- `"429" in error_str or "RESOURCE_EXHAUSTED" in error_str`. -/
def isRateLimitError (e : String) : Bool :=
  strContains e "429" || strContains e "RESOURCE_EXHAUSTED"

/-- `max_retries = 3` (analyst.py line 101). -/
def maxRetries : ℕ := 3

/-- `base_delay = 2` (analyst.py line 102). -/
def baseDelay : ℚ := 2

/-- `contents[:500] + "..." if len(str(contents)) > 500 else contents`. -/
def requestDigestOf (contents : String) : String :=
  if 500 < contents.length then contents.take 500 ++ "..." else contents

/-- `response.text[:200] + "..." if response.text else "No Text"`. -/
def responseDigestOf (text : String) : String :=
  if text = "" then "No Text" else text.take 200 ++ "..."

/-- The `for attempt in range(max_retries + 1)` loop.  `k` is the current
attempt index, `elapsed` the seconds since `start_time` (set once before
the loop, so the latency in the record accumulates across retries and
backoff sleeps), `sleeps` the sleeps performed so far.  `fuel` is the
number of loop iterations left; called with `fuel = maxRetries + 1 - k`
the zero case is the unreachable `return ""` after the loop. -/
def generateLoop (att : ℕ → GenAttempt) (jitter : ℕ → ℚ)
    (model contents : String) :
    ℕ → ℕ → ℚ → List ℚ → GenTrace
  | 0, k, elapsed, sleeps =>
    { sleeps := sleeps, records := [], attemptsMade := k, elapsed := elapsed,
      result := Except.ok "" }
  | fuel + 1, k, elapsed, sleeps =>
    let a := att k
    match a.outcome with
    | GenOutcome.success text =>
      let el := elapsed + a.duration
      { sleeps := sleeps,
        records := [{ model := model, requestDigest := requestDigestOf contents,
                      status := "200 OK", latencyMs := ⌊el * 1000⌋,
                      responseDigest := some (responseDigestOf text),
                      errorDetail := none }],
        attemptsMade := k + 1, elapsed := el, result := Except.ok text }
    | GenOutcome.failure e =>
      let el := elapsed + a.duration
      if isRateLimitError e && decide (k < maxRetries) then
        let d := baseDelay * 2 ^ k + jitter k
        generateLoop att jitter model contents fuel (k + 1) (el + d)
          (sleeps ++ [d])
      else
        { sleeps := sleeps,
          records := [{ model := model, requestDigest := requestDigestOf contents,
                        status := "ERROR", latencyMs := ⌊el * 1000⌋,
                        responseDigest := none, errorDetail := some e }],
          attemptsMade := k + 1, elapsed := el, result := Except.error e }

/-- `_generate_with_log(client, model, contents, config)`. -/
def generate_with_log (att : ℕ → GenAttempt) (jitter : ℕ → ℚ)
    (model contents : String) : GenTrace :=
  generateLoop att jitter model contents (maxRetries + 1) 0 0 []

/-- `_get_client()`: `None` without a (non-empty, Python-truthy)
`GEMINI_API_KEY`; `env` is the process environment. -/
def getClient (env : String → Option String) : Option String :=
  match env "GEMINI_API_KEY" with
  | none => none
  | some k => if k = "" then none else some k

/-! ## The analysis stages (`ai/analyst.py`)

Each Gemini-backed stage owns a `_load_prompt` outcome (the loaded and
formatted template, or a raised exception) and a `_generate_with_log`
attempt oracle.  These are bundled in `StageEnv`. -/

/-- The external collaborators of one Gemini-backed stage. -/
structure StageEnv where
  promptLoad : Except String String
  att : ℕ → GenAttempt
  jitter : ℕ → ℚ

/-- The `result` a stage observes from its `_generate_with_log` call. -/
def stageGenResult (se : StageEnv) (model contents : String) :
    Except String String :=
  (generate_with_log se.att se.jitter model contents).result

/-- `analyze_concentrated_alpha(report_content)` (Persona 1).  Returns the
stage's output text together with the trace of its remote call, `none`
when no call was attempted (missing key or prompt-load failure). -/
def analyze_concentrated_alpha (env : String → Option String) (se : StageEnv)
    (_report_content : String) : String × Option GenTrace :=
  match getClient env with
  | none => ("[red]Error: GEMINI_API_KEY not found.[/red]", none)
  | some _ =>
    match se.promptLoad with
    | Except.error e => ("[red]Prompt Load Error: " ++ e ++ "[/red]", none)
    | Except.ok prompt =>
      let t := generate_with_log se.att se.jitter "gemini-2.0-flash" prompt
      match t.result with
      | Except.ok text => (text, some t)
      | Except.error e => ("[red]AI Analysis Failed: " ++ e ++ "[/red]", some t)

/-- `analyze_deep_value(report_content)` (Persona 2); identical control
flow and error strings to Persona 1. -/
def analyze_deep_value (env : String → Option String) (se : StageEnv)
    (_report_content : String) : String × Option GenTrace :=
  match getClient env with
  | none => ("[red]Error: GEMINI_API_KEY not found.[/red]", none)
  | some _ =>
    match se.promptLoad with
    | Except.error e => ("[red]Prompt Load Error: " ++ e ++ "[/red]", none)
    | Except.ok prompt =>
      let t := generate_with_log se.att se.jitter "gemini-2.0-flash" prompt
      match t.result with
      | Except.ok text => (text, some t)
      | Except.error e => ("[red]AI Analysis Failed: " ++ e ++ "[/red]", some t)

/-- `analyze_ideas_from_google()` (independent agent). -/
def analyze_ideas_from_google (env : String → Option String) (se : StageEnv) :
    String × Option GenTrace :=
  match getClient env with
  | none => ("[red]Error: GEMINI_API_KEY not found.[/red]", none)
  | some _ =>
    match se.promptLoad with
    | Except.error e => ("[red]Prompt Load Error: " ++ e ++ "[/red]", none)
    | Except.ok prompt =>
      let t := generate_with_log se.att se.jitter "gemini-2.0-flash" prompt
      match t.result with
      | Except.ok text => (text, some t)
      | Except.error e =>
        ("[red]Agent Ideas From Google Failed: " ++ e ++ "[/red]", some t)

/-- `analyze_ideas_from_x()` (independent agent via the X.AI client; a
plain call with no retry wrapper, so its collaborator is a single call
outcome).  `envX` is `os.environ.get("XAI_API_KEY")`. -/
def analyze_ideas_from_x (envX : Option String)
    (callX : Except String String) : String :=
  match envX with
  | none => "[red]Error: XAI_API_KEY not found.[/red]"
  | some k =>
    if k = "" then "[red]Error: XAI_API_KEY not found.[/red]"
    else
      match callX with
      | Except.ok text => text
      | Except.error e => "[red]Agent Ideas From X Failed: " ++ e ++ "[/red]"

/-- One iteration of the `for ticker in tickers` loop of
`analyze_red_team`: the heading line plus either the vetting analysis or
the per-ticker error text.  `vet t` bundles the prompt load and the
`_generate_with_log` call for ticker `t` (both raise into the same
`except`). -/
def redTeamSection (vet : String → Except String String) (t : String) : String :=
  "#### Analysis: " ++ t ++ "\n" ++
    match vet t with
    | Except.ok analysis => analysis ++ "\n\n---\n"
    | Except.error e => "Error analyzing " ++ t ++ ": " ++ e ++ "\n\n"

/-- `analyze_red_team(tickers)` (Persona 4): a sequential `for` loop over
the ticker list, appending one section per ticker to the report. -/
def analyze_red_team (env : String → Option String)
    (vet : String → Except String String) (tickers : List String) : String :=
  match getClient env with
  | none => "[red]Error: GEMINI_API_KEY not found.[/red]"
  | some _ =>
    if tickers.isEmpty then "No tickers provided to vet."
    else
      tickers.foldl (fun acc t => acc ++ redTeamSection vet t)
        "### 🚩 RED TEAM DEEP DIVE REPORT\n\n"

/-! ## CIO stage and its pre-filter (`execute_portfolio_strategy`) -/

/-- The fixed heading prepended to the pre-filtered context
(`"### PRE-FILTERED DATA HIGHLIGHTS\n\n"`, 34 characters). -/
def prefilterHeader : String := "### PRE-FILTERED DATA HIGHLIGHTS\n\n"

/-- The line filter: keep lines containing `"HIT"`, `"MATCH"`, `"Score"`,
`"|"` or `"#"`. -/
def lineHasSignal (line : List Char) : Bool :=
  containsCh "HIT".data line || containsCh "MATCH".data line ||
  containsCh "Score".data line || containsCh "|".data line ||
  containsCh "#".data line

/-- The filtered text built by the loop in `execute_portfolio_strategy`:
the heading followed by every matching line of the report, each with a
trailing newline. -/
def prefilterFiltered (report_content : String) : String :=
  String.mk (prefilterHeader.data ++
    ((splitLinesCh report_content.data).filter lineHasSignal).foldr
      (fun line acc => line ++ '\n' :: acc) [])

/-- The pre-filter ("fusion") step inside `execute_portfolio_strategy`:
if the filtered text is shorter than 500 characters, fall back to the
first 20 000 characters of the original report. -/
def prefilterReportContent (report_content : String) : String :=
  let clean := prefilterFiltered report_content
  if clean.length < 500 then String.mk (report_content.data.take 20000)
  else clean

/-- The keyword inputs of `execute_portfolio_strategy` as called from
`main.py` (lines 424–432). -/
structure CIOInput where
  reportContent : String
  agent1Analysis : String
  agent2Analysis : String
  redTeamAnalysis : String
  analysisGoogle : String
  analysisX : String
  alphaToolkitData : String

/-- `execute_portfolio_strategy(...)` (Persona 3, the CIO): pre-filter the
report, load the prompt (from the filtered report and all stage inputs),
and make the remote call; any raise from the call lands in the outer
`except` as `"[red]AI Analysis Failed: ...[/red]"`. -/
def execute_portfolio_strategy (env : String → Option String) (se : StageEnv)
    (inp : CIOInput) : String :=
  match getClient env with
  | none => "[red]Error: GEMINI_API_KEY not found.[/red]"
  | some _ =>
    let _clean := prefilterReportContent inp.reportContent
    match se.promptLoad with
    | Except.error e => "[red]Prompt Load Error: " ++ e ++ "[/red]"
    | Except.ok prompt =>
      match stageGenResult se "gemini-2.0-flash" prompt with
      | Except.ok text => text
      | Except.error e => "[red]AI Analysis Failed: " ++ e ++ "[/red]"

/-! ## The `--ai` pipeline of `main.py` (lines 317–436)

Four independent stages (Google, X, Alpha, Value) are submitted to a
thread pool and joined; the joined texts feed the ticker extraction, the
red-team fan-out and, unconditionally, the CIO stage.  A failed stage is
represented by its `[red]...[/red]` placeholder string, which flows into
dependants like any other text. -/

/-- The observable outcome of one `--ai` pipeline run.  `executed` lists,
in submission order, the stages whose function was invoked (the four
independent agents are always submitted; `"red_team"` is invoked only when
tickers were extracted; `"cio"` is always invoked). -/
structure PipelineResult where
  executed : List String
  analysisAlpha : String
  analysisValue : String
  analysisGoogle : String
  analysisX : String
  tickers : List String
  analysisRed : String
  cioInput : CIOInput
  analysisCio : String

/-- The `args.ai` branch of `main()`: combine the loaded reports, run the
four independent agents, extract and dedupe tickers from their four
outputs, run the red team when targets exist, then always run the CIO with
every stage's text (placeholder error strings included). -/
def main_ai_pipeline (env : String → Option String) (envX : Option String)
    (seAlpha seValue seGoogle : StageEnv) (callX : Except String String)
    (vet : String → Except String String) (seCio : StageEnv)
    (fundamentalsContent ceilingContent alphaToolkitContent : String) :
    PipelineResult :=
  let combined := fundamentalsContent ++ "\n\n" ++ ceilingContent
  let aGoogle := (analyze_ideas_from_google env seGoogle).1
  let aX := analyze_ideas_from_x envX callX
  let aAlpha := (analyze_concentrated_alpha env seAlpha combined).1
  let aValue := (analyze_deep_value env seValue combined).1
  let tickers := dedupFirst
    (extract_tickers_from_analysis aAlpha ++
     extract_tickers_from_analysis aValue ++
     extract_tickers_from_analysis aGoogle ++
     extract_tickers_from_analysis aX)
  let red :=
    if tickers.isEmpty then "No tickers found to vet."
    else analyze_red_team env vet tickers
  let cioInp : CIOInput :=
    { reportContent := combined, agent1Analysis := aAlpha,
      agent2Analysis := aValue, redTeamAnalysis := red,
      analysisGoogle := aGoogle, analysisX := aX,
      alphaToolkitData := alphaToolkitContent }
  { executed := ["google", "x", "alpha", "value"] ++
      (if tickers.isEmpty then [] else ["red_team"]) ++ ["cio"],
    analysisAlpha := aAlpha, analysisValue := aValue,
    analysisGoogle := aGoogle, analysisX := aX,
    tickers := tickers, analysisRed := red,
    cioInput := cioInp,
    analysisCio := execute_portfolio_strategy env seCio cioInp }

/-! ## Scan/score engine

`stocks_international/technicals.py` is embedded below.
`stocks_us/scanner.py` imports a `technicals` module that is not under
`src/`; per spec §4.3 the scoring engine is shared between the two data
sources, so the US scanner is given the same technicals (see
`StocksUs.scan_tickers`).

A pandas data frame is a list of rows; a derived column is a function from
the row index to its value (`none` = NaN).  `analyze_breakout` only ever
reads the last row, so only the index functions are materialised. -/

/-- One row of the fetched history (only the columns the scoring reads:
`High`, `Close`, `Volume`). -/
structure Row where
  high : ℚ
  close : ℚ
  volume : ℚ

/-- A fetched history. -/
abbrev Frame := List Row

/-- The last `w` elements of a series. -/
def lastWindow (w : ℕ) (xs : List ℚ) : List ℚ := xs.drop (xs.length - w)

/-- `series.rolling(window=w).max()` at index `i`: `NaN` (`none`) until `w`
observations are available. -/
def rollingMaxAt (w : ℕ) (xs : List ℚ) (i : ℕ) : Option ℚ :=
  if w ≤ i + 1 then ((xs.take (i + 1)).drop (i + 1 - w)).max? else none

/-- `series.rolling(window=w).mean()` at index `i`. -/
def rollingMeanAt (w : ℕ) (xs : List ℚ) (i : ℕ) : Option ℚ :=
  if w ≤ i + 1 then some (((xs.take (i + 1)).drop (i + 1 - w)).sum / w)
  else none

/-- `delta.where(delta > 0, 0)` at index `i`, where `delta = Close.diff()`:
the first diff is NaN, and `NaN > 0` is false, so index 0 yields 0. -/
def gainAt (closes : List ℚ) (i : ℕ) : ℚ :=
  if i = 0 then 0
  else
    let d := closes.getD i 0 - closes.getD (i - 1) 0
    if 0 < d then d else 0

/-- `(-delta.where(delta < 0, 0))` at index `i`. -/
def lossAt (closes : List ℚ) (i : ℕ) : ℚ :=
  if i = 0 then 0
  else
    let d := closes.getD i 0 - closes.getD (i - 1) 0
    if d < 0 then -d else 0

/-- The 14-period RSI column at index `i`:
`100 - 100 / (1 + rs)` with `rs = gain_mean / loss_mean`.  With floats,
`loss_mean = 0` gives `rs = NaN` when `gain_mean = 0` (NaN RSI) and
`rs = ±inf` otherwise (RSI exactly 100), which is modelled explicitly
because `ℚ` has no infinity. -/
def rsiAt (closes : List ℚ) (i : ℕ) : Option ℚ :=
  if 14 ≤ i + 1 then
    let g := ((List.range 14).map (fun t => gainAt closes (i + 1 - 14 + t))).sum / 14
    let l := ((List.range 14).map (fun t => lossAt closes (i + 1 - 14 + t))).sum / 14
    if l = 0 then (if g = 0 then none else some 100)
    else some (100 - 100 / (1 + g / l))
  else none

/-- `df['Volume'] / df['Avg_Volume_20']` at index `i`; division of floats
by an exact 0 yields ±inf/NaN, which no snapshot field distinguishes, so
the column is `none` there (the score's volume test handles that case
itself, see `analyze_breakout`). -/
def rvolAt (vols : List ℚ) (i : ℕ) : Option ℚ :=
  match rollingMeanAt 20 vols i with
  | none => none
  | some av => if av = 0 then none else some (vols.getD i 0 / av)

/-- The indicator columns added by `calculate_technicals`.  The `Returns`,
`Avg_Volume_20` (exposed through `rvol`) and Bollinger columns are added
by the source but never read by `analyze_breakout`; the Bollinger bands
involve a square root and are omitted from the model (spec §4.3 notes they
are retained but not part of the score). -/
structure TechColumns where
  high52 : ℕ → Option ℚ
  sma20 : ℕ → Option ℚ
  sma50 : ℕ → Option ℚ
  avgVolume20 : ℕ → Option ℚ
  rvol : ℕ → Option ℚ
  rsi : ℕ → Option ℚ

/-- `calculate_technicals(df)`. -/
def calculate_technicals (f : Frame) : TechColumns :=
  let highs := f.map Row.high
  let closes := f.map Row.close
  let vols := f.map Row.volume
  { high52 := rollingMaxAt 252 highs,
    sma20 := rollingMeanAt 20 closes,
    sma50 := rollingMeanAt 50 closes,
    avgVolume20 := rollingMeanAt 20 vols,
    rvol := rvolAt vols,
    rsi := rsiAt closes }

/-- The dictionary returned by `analyze_breakout`. -/
structure BreakoutDict where
  price : ℚ
  high52 : Option ℚ
  pctFromHigh : Option ℚ
  isBreakingOut : Bool
  rvol : Option ℚ
  rsi : Option ℚ
  score : ℕ

/-- `analyze_breakout(df)` on the frame enriched by `calculate_technicals`
(the source enriches the frame first and passes it in; the model computes
the columns at the point of use, which reads the same values).  An empty
frame returns the empty dict (`none`); a one-row frame raises `IndexError`
at `prev = df.iloc[-2]` (`Except.error`).  Every comparison involving a
NaN column value is false. -/
def analyze_breakout (f : Frame) : Except Unit (Option BreakoutDict) :=
  if f.length = 0 then Except.ok none
  else if f.length = 1 then Except.error ()
  else
    let cols := calculate_technicals f
    let i := f.length - 1
    let c := (f.map Row.close).getD i 0
    let v := (f.map Row.volume).getD i 0
    let ceil := cols.high52 i
    let isB : Bool :=
      match ceil with
      | some m => decide (m * (98 / 100) ≤ c)
      | none => false
    let hasVol : Bool :=
      match cols.avgVolume20 i with
      | some av =>
        if av = 0 then decide (0 < v) else decide ((3 : ℚ) / 2 < v / av)
      | none => false
    let rsiGt60 : Bool :=
      match cols.rsi i with
      | some r => decide ((60 : ℚ) < r)
      | none => false
    let gtSma20 : Bool :=
      match cols.sma20 i with
      | some m => decide (m < c)
      | none => false
    let gtSma50 : Bool :=
      match cols.sma50 i with
      | some m => decide (m < c)
      | none => false
    let volGt1M : Bool := decide ((1000000 : ℚ) < v)
    Except.ok (some
      { price := c,
        high52 := ceil,
        pctFromHigh :=
          match ceil with
          | some m => if m = 0 then none else some ((c - m) / m * 100)
          | none => none,
        isBreakingOut := isB,
        rvol := cols.rvol i,
        rsi := cols.rsi i,
        score := (if isB then 40 else 0) + (if hasVol then 20 else 0) +
          (if rsiGt60 then 10 else 0) + (if gtSma20 then 10 else 0) +
          (if gtSma50 then 10 else 0) + (if volGt1M then 10 else 0) })

/-! ## Scanners (`stocks_us/scanner.py`, `stocks_international/scanner.py`) -/

/-- One scored instrument as appended to `all_results` in `main.py`. -/
structure Snapshot where
  ticker : String
  price : ℚ
  pctFromHigh : Option ℚ
  rvol : Option ℚ
  rsi : Option ℚ
  score : ℕ
  category : Option String

/-- `get_market_data(ticker)` applied to the fetch outcome for a ticker:
`None` on a raised fetch error, an empty history, or fewer than 50
observations (time-zone normalisation does not change the row count and is
not modelled). -/
def get_market_data (res : Except String Frame) : Option Frame :=
  match res with
  | Except.error _ => none
  | Except.ok df =>
    if df.isEmpty then none
    else if df.length < 50 then none
    else some df

/-- `analyze_ticker(ticker)`: fetch, compute technicals, score, and filter
out scores below 20.  `Except.error` models an exception escaping
`analyze_ticker` (swallowed per-ticker by `scan_tickers`); `category` is
`'International'` in the international scanner and absent in the US one. -/
def analyze_ticker (fetch : String → Except String Frame)
    (category : Option String) (t : String) : Except Unit (Option Snapshot) :=
  match get_market_data (fetch t) with
  | none => Except.ok none
  | some df =>
    match analyze_breakout df with
    | Except.error u => Except.error u
    | Except.ok none => Except.ok none
    | Except.ok (some d) =>
      if d.score < 20 then Except.ok none
      else Except.ok (some
        { ticker := t, price := d.price, pctFromHigh := d.pctFromHigh,
          rvol := d.rvol, rsi := d.rsi, score := d.score,
          category := category })

/-- Stable descending insertion by score: a new element goes after every
element of at-least-equal score (the ordering produced by Python's stable
`list.sort(key=..., reverse=True)`). -/
def insertDesc (x : Snapshot) : List Snapshot → List Snapshot
  | [] => [x]
  | y :: ys => if y.score < x.score then x :: y :: ys else y :: insertDesc x ys

/-- `results.sort(key=lambda x: x['score'], reverse=True)`. -/
def sortByScoreDesc (l : List Snapshot) : List Snapshot :=
  l.foldl (fun acc x => insertDesc x acc) []

/-- The body shared by both `scan_tickers` functions: collect per-ticker
results in completion order (an arbitrary interleaving of the worker
pool), swallowing per-ticker exceptions and `None`s, then sort by score
descending. -/
def scanCore (fetch : String → Except String Frame) (category : Option String)
    (completionOrder : List String) : List Snapshot :=
  sortByScoreDesc (completionOrder.filterMap (fun t =>
    match analyze_ticker fetch category t with
    | Except.ok (some s) => some s
    | _ => none))

namespace StocksUs

/-- Modelled from the spec: `stocks_us/technicals.py` (imported by
`stocks_us/scanner.py`) is not under `src/`; spec §4.3 specifies a single
scoring algorithm for all data sources, identical to the embedded
`stocks_international/technicals.py`, so the US `scan_tickers`
(`ThreadPoolExecutor(max_workers=20)`) shares `scanCore` with no category
tag. -/
def scan_tickers (fetch : String → Except String Frame)
    (completionOrder : List String) : List Snapshot :=
  scanCore fetch none completionOrder

end StocksUs

namespace StocksIntl

/-- `stocks_international/scanner.py`'s `scan_tickers`
(`ThreadPoolExecutor(max_workers=10)`): as the US one, but each snapshot is
tagged `category = 'International'`. -/
def scan_tickers (fetch : String → Except String Frame)
    (completionOrder : List String) : List Snapshot :=
  scanCore fetch (some "International") completionOrder

end StocksIntl

/-! ## Claim-side definitions

`claimScore` restates the conviction score the way the specification words
it — fixed awards over direct expressions on the last windows of the
series — to be compared with the engine's `analyze_breakout`. -/

/-- The conviction score as the specification words it: starting from 0,
+40 if the latest close is at least 98 % of the maximum high of the last
252 periods, +20 if the latest volume divided by the 20-period average
volume exceeds 1.5, +10 if the 14-period RSI exceeds 60, +10 each if the
close exceeds the 20- and 50-period simple moving averages, +10 if the
latest volume exceeds 1 000 000. -/
def claimScore (f : Frame) : ℕ :=
  let n := f.length
  let highs := f.map Row.high
  let closes := f.map Row.close
  let vols := f.map Row.volume
  let c := closes.getD (n - 1) 0
  let v := vols.getD (n - 1) 0
  (if 252 ≤ n ∧ (98 / 100 : ℚ) * ((lastWindow 252 highs).max?.getD 0) ≤ c
    then 40 else 0) +
  (if 20 ≤ n ∧ (3 : ℚ) / 2 < v / ((lastWindow 20 vols).sum / 20)
    then 20 else 0) +
  (if (match rsiAt closes (n - 1) with
       | some r => decide ((60 : ℚ) < r)
       | none => false) = true
    then 10 else 0) +
  (if 20 ≤ n ∧ (lastWindow 20 closes).sum / 20 < c then 10 else 0) +
  (if 50 ≤ n ∧ (lastWindow 50 closes).sum / 50 < c then 10 else 0) +
  (if (1000000 : ℚ) < v then 10 else 0)

/-! ## Concrete fixtures used by witnesses and counterexamples -/

/-- An environment holding a Gemini key. -/
def wEnv : String → Option String :=
  fun s => if s = "GEMINI_API_KEY" then some "test-key" else none

/-- An attempt oracle that always fails with a rate-limit error. -/
def wAttRL : ℕ → GenAttempt :=
  fun _ => { outcome := GenOutcome.failure "429 RESOURCE_EXHAUSTED", duration := 1 }

/-- An attempt oracle that fails once with a non-rate-limit error. -/
def wAttBoom : ℕ → GenAttempt :=
  fun _ => { outcome := GenOutcome.failure "boom", duration := 1 }

/-- An attempt oracle that succeeds immediately. -/
def wAttOk (text : String) : ℕ → GenAttempt :=
  fun _ => { outcome := GenOutcome.success text, duration := 1 }

/-- Zero jitter. -/
def wJitter0 : ℕ → ℚ := fun _ => 0

/-- A stage environment whose remote call fails once, fatally. -/
def wSeBoom : StageEnv :=
  { promptLoad := Except.ok "PROMPT", att := wAttBoom, jitter := wJitter0 }

/-- A stage environment whose remote call succeeds with `text`. -/
def wSeOk (text : String) : StageEnv :=
  { promptLoad := Except.ok "PROMPT", att := wAttOk text, jitter := wJitter0 }

/-- The attempt oracle of the C8 counterexample: a rate-limited failure
lasting 5 s, then a success lasting 1 s (total wall clock with the 2 s
backoff sleep: 8 s). -/
def wAttC8 : ℕ → GenAttempt :=
  fun k =>
    if k = 0 then { outcome := GenOutcome.failure "429", duration := 5 }
    else { outcome := GenOutcome.success "fine", duration := 1 }

/-- A report line of 465 `|` characters (it matches the CIO line filter,
and 465 < 500, yet the filtered text `34 + 465 + 1 = 500` chars long is
not under the fallback threshold). -/
def wPipes465 : String := String.mk (List.replicate 465 '|')

/-- A report of 500 `|` characters (comfortably past the threshold). -/
def wPipes500 : String := String.mk (List.replicate 500 '|')

/-- A constant-price row with the given volume. -/
def wRow (vol : ℚ) : Row := { high := 10, close := 10, volume := vol }

/-- A 50-row history: 49 periods of volume 2 000 000, then a
20 000 000-volume period (relative volume ≈ 6.9, so the score is
20 + 10 = 30 and the snapshot survives the filter). -/
def wFrame50 : Frame := List.replicate 49 (wRow 2000000) ++ [wRow 20000000]

/-- A 10-row history (insufficient: fewer than 50 observations). -/
def wFrame10 : Frame := List.replicate 10 (wRow 2000000)

/-- A market-data oracle: `"T"` has the qualifying 50-row history, `"BAD"`
the short one, anything else raises. -/
def wFetch : String → Except String Frame :=
  fun t =>
    if t = "T" then Except.ok wFrame50
    else if t = "BAD" then Except.ok wFrame10
    else Except.error "no data"

/-- Decidable equality of call results (for concrete evaluations). -/
instance : DecidableEq (Except String String) := fun a b =>
  match a, b with
  | Except.ok x, Except.ok y => decidable_of_iff (x = y) (by simp)
  | Except.error x, Except.error y => decidable_of_iff (x = y) (by simp)
  | Except.ok _, Except.error _ => isFalse (by simp)
  | Except.error _, Except.ok _ => isFalse (by simp)

end CS

/-! # Theorems -/

/-! ## Symbol-extractor lemmas -/

/-- A successful `([A-Z]{2,6})` capture has between two and six characters,
all uppercase ASCII letters. -/
theorem captureUpper_spec {cs cap rest : List Char}
    (h : CS.captureUpper cs = some (cap, rest)) :
    2 ≤ cap.length ∧ cap.length ≤ 6 ∧ cap.all CS.isUpperAZ = true := by
  simp only [CS.captureUpper] at h
  split at h
  case isTrue hlen =>
    obtain ⟨hc, -⟩ : (cs.takeWhile CS.isUpperAZ).take 6 = cap ∧
        cs.drop ((cs.takeWhile CS.isUpperAZ).take 6).length = rest := by
      simpa using h
    subst hc
    refine ⟨hlen, ?_, ?_⟩
    · simp
    · rw [List.all_eq_true]
      intro c hc
      exact List.mem_takeWhile_imp (List.take_subset _ _ hc)
  case isFalse => simp at h

/-- Pattern-1 captures come from `captureUpper`. -/
theorem matchP1core_cap {cs cap rest : List Char}
    (h : CS.matchP1core cs = some (cap, rest)) :
    2 ≤ cap.length ∧ cap.length ≤ 6 ∧ cap.all CS.isUpperAZ = true := by
  simp only [CS.matchP1core] at h
  split at h
  · simp at h
  · split at h
    case h_1 cs' =>
      split at h
      case h_1 => simp at h
      case h_2 cap' rest' hcap =>
        obtain ⟨hc, -⟩ : cap' = cap ∧ CS.optChar ']' rest' = rest := by
          simpa using h
        subst hc
        exact captureUpper_spec hcap
    case h_2 => simp at h

/-- Pattern-1-with-anchor captures come from `captureUpper`. -/
theorem matchP1_cap {b : Bool} {cs cap rest : List Char}
    (h : CS.matchP1 b cs = some (cap, rest)) :
    2 ≤ cap.length ∧ cap.length ≤ 6 ∧ cap.all CS.isUpperAZ = true := by
  simp only [CS.matchP1] at h
  split at h
  · split at h
    case h_1 res hres =>
      cases h
      exact matchP1core_cap hres
    case h_2 =>
      split at h
      · exact matchP1core_cap h
      · simp at h
  · split at h
    · exact matchP1core_cap h
    · simp at h

/-- Pattern-2 captures come from `captureUpper`. -/
theorem matchP2_cap {b : Bool} {cs cap rest : List Char}
    (h : CS.matchP2 b cs = some (cap, rest)) :
    2 ≤ cap.length ∧ cap.length ≤ 6 ∧ cap.all CS.isUpperAZ = true := by
  simp only [CS.matchP2] at h
  split at h
  case h_1 r =>
    split at h
    case h_1 => simp at h
    case h_2 r2 =>
      split at h
      case h_1 => simp at h
      case h_2 cap' rest' hcap =>
        obtain ⟨hc, -⟩ : cap' = cap ∧
            CS.optChar '*' (CS.optChar ']' rest') = rest := by
          simpa using h
        subst hc
        exact captureUpper_spec hcap
  case h_2 => simp at h

/-- Pattern-3 captures come from `captureUpper`. -/
theorem matchP3_cap {b : Bool} {cs cap rest : List Char}
    (h : CS.matchP3 b cs = some (cap, rest)) :
    2 ≤ cap.length ∧ cap.length ≤ 6 ∧ cap.all CS.isUpperAZ = true := by
  simp only [CS.matchP3] at h
  split at h
  case h_1 r => exact captureUpper_spec h
  case h_2 => simp at h

/-- Every capture collected by the `findall` driver satisfies whatever
every single-position match of the pattern satisfies. -/
theorem findallGo_caps {mf : Bool → List Char → Option (List Char × List Char)}
    {P : List Char → Prop}
    (hmf : ∀ b cs cap rest, mf b cs = some (cap, rest) → P cap) :
    ∀ fuel b cs cap, cap ∈ CS.findallGo mf fuel b cs → P cap := by
  intro fuel
  induction fuel with
  | zero => intro b cs cap h; simp [CS.findallGo] at h
  | succ n ih =>
    intro b cs cap h
    cases hm : mf b cs with
    | some res =>
      obtain ⟨c, r⟩ := res
      simp only [CS.findallGo, hm] at h
      rcases List.mem_cons.mp h with h | h
      · exact h ▸ hmf b cs c r hm
      · exact ih false r cap h
    | none =>
      simp only [CS.findallGo, hm] at h
      cases cs with
      | nil => simp at h
      | cons c t => exact ih false t cap h

/-- Elements surviving `dedupFirstGo` come from the input list. -/
theorem dedupFirstGo_subset :
    ∀ (l seen : List String) (s : String), s ∈ CS.dedupFirstGo seen l → s ∈ l := by
  intro l
  induction l with
  | nil => intro seen s h; simp [CS.dedupFirstGo] at h
  | cons x xs ih =>
    intro seen s h
    rw [CS.dedupFirstGo] at h
    split at h
    · exact List.mem_cons_of_mem x (ih seen s h)
    · rcases List.mem_cons.mp h with h | h
      · exact h ▸ List.mem_cons_self x xs
      · exact List.mem_cons_of_mem x (ih (x :: seen) s h)

/-- Elements surviving `dedupFirstGo` were not previously seen. -/
theorem dedupFirstGo_not_seen :
    ∀ (l seen : List String) (s : String), s ∈ CS.dedupFirstGo seen l →
      seen.contains s = false := by
  intro l
  induction l with
  | nil => intro seen s h; simp [CS.dedupFirstGo] at h
  | cons x xs ih =>
    intro seen s h
    rw [CS.dedupFirstGo] at h
    split at h
    · exact ih seen s h
    · rename_i hns
      rcases List.mem_cons.mp h with h | h
      · subst h
        simpa using hns
      · have h2 := ih (x :: seen) s h
        simp only [List.contains_cons, Bool.or_eq_false_iff] at h2
        exact h2.2

/-- `dedupFirstGo` produces no duplicates. -/
theorem dedupFirstGo_nodup :
    ∀ (l seen : List String), (CS.dedupFirstGo seen l).Nodup := by
  intro l
  induction l with
  | nil => intro seen; simp [CS.dedupFirstGo]
  | cons x xs ih =>
    intro seen
    rw [CS.dedupFirstGo]
    split
    · exact ih seen
    · refine List.nodup_cons.mpr ⟨?_, ih (x :: seen)⟩
      intro hmem
      have := dedupFirstGo_not_seen xs (x :: seen) x hmem
      simp at this

/-- Every extracted token comes from one of the three pattern scanners and
survives the length/stop-word filter. -/
theorem extract_mem_structure {x : String} {s : String}
    (h : s ∈ CS.extract_tickers_from_analysis x) :
    2 ≤ s.length ∧ s.length ≤ 6 ∧ s.data.all CS.isUpperAZ = true := by
  have hclean := dedupFirstGo_subset _ [] s h
  simp only [List.mem_filterMap] at hclean
  obtain ⟨t, ht, hf⟩ := hclean
  by_cases hc : (2 ≤ (String.mk t).length && !(CS.stopWords.contains (String.mk t))) = true
  · rw [if_pos hc] at hf
    obtain rfl : String.mk t = s := by simpa using hf
    have hlen : (String.mk t).length = t.length := rfl
    have hdata : (String.mk t).data = t := rfl
    have hcap : 2 ≤ t.length ∧ t.length ≤ 6 ∧ t.all CS.isUpperAZ = true := by
      rcases List.mem_append.mp ht with ht' | ht'
      · rcases List.mem_append.mp ht' with ht'' | ht''
        · exact findallGo_caps (fun b cs cap rest hm => matchP1_cap hm) _ _ _ _ ht''
        · exact findallGo_caps (fun b cs cap rest hm => matchP2_cap hm) _ _ _ _ ht''
      · exact findallGo_caps (fun b cs cap rest hm => matchP3_cap hm) _ _ _ _ ht'
    exact ⟨hlen ▸ hcap.1, hlen ▸ hcap.2.1, hdata ▸ hcap.2.2⟩
  · rw [if_neg hc] at hf
    simp at hf

/-! ## Claim C5 -/

/-- C5 (amended): the extractor yields exactly
`{AAPL, MSFT, TSLA, NVDA}` on the first test text and `{}` on `"1. AND"`
(stop-word filtered); it is deterministic (`extract(x) == extract(x)`);
and for every input the result is a duplicate-free list of uppercase
tokens of length 2 to 6.  (The original claim's invariance under
duplicating the input is dropped: see `c5_counterexample`.) -/
theorem c5_extractor :
    (CS.extract_tickers_from_analysis "1. [AAPL]\n2. MSFT\nTHE LONG: TSLA\n$NVDA" =
      ["AAPL", "MSFT", "TSLA", "NVDA"]) ∧
    (CS.extract_tickers_from_analysis "1. AND" = []) ∧
    (∀ x, CS.extract_tickers_from_analysis x = CS.extract_tickers_from_analysis x) ∧
    (∀ x s, s ∈ CS.extract_tickers_from_analysis x →
      2 ≤ s.length ∧ s.length ≤ 6 ∧ s.data.all CS.isUpperAZ = true) ∧
    (∀ x, (CS.extract_tickers_from_analysis x).Nodup) := by
  refine ⟨by decide, by decide, fun x => rfl, ?_, ?_⟩
  · intro x s h
    exact extract_mem_structure h
  · intro x
    exact dedupFirstGo_nodup _ []

/-- Witness for C5: the token extracted from `"$AB"` indeed has the stated
shape. -/
theorem c5_extractor_witness :
    "AB" ∈ CS.extract_tickers_from_analysis "$AB" ∧
      (2 ≤ "AB".length ∧ "AB".length ≤ 6 ∧ "AB".data.all CS.isUpperAZ = true) :=
  ⟨by decide, c5_extractor.2.2.2.1 "$AB" "AB" (by decide)⟩

/-- Counterexample for C5 as stated: extraction is not invariant under
duplicating the input.  `"AB\n1."` yields no token, but its duplication
`"AB\n1.AB\n1."` yields `AB` (the `1.` of the first copy, anchored at the
newline, captures the `AB` that begins the second copy). -/
theorem c5_counterexample :
    "AB" ∈ CS.extract_tickers_from_analysis ("AB\n1." ++ "AB\n1.") ∧
      "AB" ∉ CS.extract_tickers_from_analysis "AB\n1." := by
  decide

/-! ## Claim C6 -/

/-- Appending one section per element, left to right, is the concatenation
of the per-element sections in list order. -/
theorem foldl_append_sections (f : String → String) :
    ∀ (l : List String) (acc : String),
      l.foldl (fun a t => a ++ f t) acc = acc ++ (l.map f).foldr (· ++ ·) "" := by
  intro l
  induction l with
  | nil => intro acc; simp [String.append_empty]
  | cons x xs ih =>
    intro acc
    simp only [List.foldl_cons, List.map_cons, List.foldr_cons]
    rw [ih (acc ++ f x), String.append_assoc]

/-- C6 (amended): the per-symbol vetting step makes exactly one vetting
call per extracted symbol, but it is a sequential `for` loop: the sections
are concatenated in the order the symbols appear in the submitted list
(which is also the only order there is — no worker pool and no
completion-order nondeterminism exists in this stage). -/
theorem c6_red_team (env : String → Option String)
    (vet : String → Except String String) (tickers : List String) (k : String)
    (hk : CS.getClient env = some k) (hne : tickers ≠ []) :
    CS.analyze_red_team env vet tickers =
      "### 🚩 RED TEAM DEEP DIVE REPORT\n\n" ++
        (tickers.map (CS.redTeamSection vet)).foldr (· ++ ·) "" := by
  unfold CS.analyze_red_team
  rw [hk]
  rw [if_neg (by simpa using hne)]
  exact foldl_append_sections (CS.redTeamSection vet) tickers _

/-- Witness for C6 at a concrete one-symbol list. -/
theorem c6_red_team_witness :
    CS.getClient CS.wEnv = some "test-key" ∧
    (["AA"] : List String) ≠ [] ∧
    CS.analyze_red_team CS.wEnv (fun t => Except.ok ("vetted " ++ t)) ["AA"] =
      "### 🚩 RED TEAM DEEP DIVE REPORT\n\n" ++
        ((["AA"].map (CS.redTeamSection (fun t => Except.ok ("vetted " ++ t)))).foldr
          (· ++ ·) "") :=
  ⟨by decide, by decide,
    c6_red_team CS.wEnv (fun t => Except.ok ("vetted " ++ t)) ["AA"] "test-key"
      (by decide) (by decide)⟩

/-- Counterexample for C6 as stated: the vetting report is a deterministic
function of the submitted symbol list, with the sections concatenated in
exactly the submission order — swapping the submission order swaps the
report — contradicting the claimed bounded-worker concurrency whose
concatenation order is completion order rather than submission order. -/
theorem c6_counterexample :
    CS.analyze_red_team CS.wEnv (fun t => Except.ok ("vetted " ++ t)) ["AA", "BB"] =
      "### 🚩 RED TEAM DEEP DIVE REPORT\n\n#### Analysis: AA\nvetted AA\n\n---\n#### Analysis: BB\nvetted BB\n\n---\n" ∧
    CS.analyze_red_team CS.wEnv (fun t => Except.ok ("vetted " ++ t)) ["BB", "AA"] =
      "### 🚩 RED TEAM DEEP DIVE REPORT\n\n#### Analysis: BB\nvetted BB\n\n---\n#### Analysis: AA\nvetted AA\n\n---\n" ∧
    CS.analyze_red_team CS.wEnv (fun t => Except.ok ("vetted " ++ t)) ["AA", "BB"] ≠
      CS.analyze_red_team CS.wEnv (fun t => Except.ok ("vetted " ++ t)) ["BB", "AA"] := by
  refine ⟨by decide, by decide, ?_⟩
  decide

/-! ## Claim C7 -/

/-- The length of the joined kept lines is the sum of each line's length
plus one for its re-appended newline. -/
theorem foldr_newline_length :
    ∀ l : List (List Char),
      (l.foldr (fun line acc => line ++ '\n' :: acc) []).length =
        (l.map (fun x => x.length + 1)).sum := by
  intro l
  induction l with
  | nil => simp
  | cons x xs ih => simp [ih]; omega

/-- C7 (amended): the fallback truncation path of the CIO pre-filter is
taken exactly when the *built* filtered text — a fixed 34-character
heading plus every matching line with a trailing newline — is shorter than
500 characters; on that path the result is the original report truncated
to 20 000 characters; otherwise the result is the built filtered text
(heading included), not the bare concatenation of matching lines. -/
theorem c7_prefilter (report : String) :
    ((CS.prefilterFiltered report).length < 500 →
      CS.prefilterReportContent report = String.mk (report.data.take 20000) ∧
      (CS.prefilterReportContent report).length ≤ 20000) ∧
    (500 ≤ (CS.prefilterFiltered report).length →
      CS.prefilterReportContent report = CS.prefilterFiltered report) ∧
    (CS.prefilterFiltered report).length =
      34 + (((CS.splitLinesCh report.data).filter CS.lineHasSignal).map
        (fun l => l.length + 1)).sum := by
  refine ⟨?_, ?_, ?_⟩
  · intro h
    have he : CS.prefilterReportContent report = String.mk (report.data.take 20000) := by
      unfold CS.prefilterReportContent
      rw [if_pos h]
    refine ⟨he, ?_⟩
    rw [he]
    show (report.data.take 20000).length ≤ 20000
    simp
  · intro h
    unfold CS.prefilterReportContent
    rw [if_neg (by omega)]
  · show (CS.prefilterHeader.data ++
      ((CS.splitLinesCh report.data).filter CS.lineHasSignal).foldr
        (fun line acc => line ++ '\n' :: acc) []).length = _
    rw [List.length_append, foldr_newline_length,
      show CS.prefilterHeader.data.length = 34 from rfl]

set_option maxRecDepth 40000 in
/-- Witness for C7: a marker-free one-character report takes the fallback
path; a 500-character matching report keeps the filtered text. -/
theorem c7_prefilter_witness :
    ((CS.prefilterFiltered "x").length < 500 ∧
      CS.prefilterReportContent "x" = String.mk ("x".data.take 20000) ∧
      (CS.prefilterReportContent "x").length ≤ 20000) ∧
    (500 ≤ (CS.prefilterFiltered CS.wPipes500).length ∧
      CS.prefilterReportContent CS.wPipes500 = CS.prefilterFiltered CS.wPipes500) :=
  ⟨⟨by decide, (c7_prefilter "x").1 (by decide)⟩,
   ⟨by decide, (c7_prefilter CS.wPipes500).2.1 (by decide)⟩⟩

set_option maxRecDepth 40000 in
/-- Counterexample for C7 as stated: for a report that is a single line of
465 `|` characters, only 465 characters' worth of lines match the filter
(fewer than 500), yet the fallback is *not* taken — because the source
compares the built filtered text, whose 34-character heading and
re-appended newline push it to 500 — and the kept result is the heading
plus the line, not the truncated original. -/
theorem c7_counterexample :
    (((CS.splitLinesCh CS.wPipes465.data).filter CS.lineHasSignal).map
        (fun l => l.length)).sum = 465 ∧
    CS.prefilterReportContent CS.wPipes465 = CS.prefilterFiltered CS.wPipes465 ∧
    CS.prefilterReportContent CS.wPipes465 ≠ String.mk (CS.wPipes465.data.take 20000) := by
  refine ⟨by decide, by decide, by decide⟩


/-! ## Claim C1 -/

/-- A Gemini stage whose remote call raises returns the
`AI Analysis Failed` placeholder string (Persona 1). -/
theorem alpha_fail_placeholder (env : String → Option String) (se : CS.StageEnv)
    (rc k pa e : String) (hk : CS.getClient env = some k)
    (hp : se.promptLoad = Except.ok pa)
    (hg : CS.stageGenResult se "gemini-2.0-flash" pa = Except.error e) :
    (CS.analyze_concentrated_alpha env se rc).1 =
      "[red]AI Analysis Failed: " ++ e ++ "[/red]" := by
  unfold CS.analyze_concentrated_alpha
  rw [hk, hp]
  have hg2 : (CS.generate_with_log se.att se.jitter "gemini-2.0-flash" pa).result =
      Except.error e := hg
  simp only [hg2]

/-- A Gemini stage whose remote call succeeds returns the response text
(Persona 2). -/
theorem value_ok_text (env : String → Option String) (se : CS.StageEnv)
    (rc k pv v : String) (hk : CS.getClient env = some k)
    (hp : se.promptLoad = Except.ok pv)
    (hg : CS.stageGenResult se "gemini-2.0-flash" pv = Except.ok v) :
    (CS.analyze_deep_value env se rc).1 = v := by
  unfold CS.analyze_deep_value
  rw [hk, hp]
  have hg2 : (CS.generate_with_log se.att se.jitter "gemini-2.0-flash" pv).result =
      Except.ok v := hg
  simp only [hg2]

/-- C1 (amended): when the Concentrated-Alpha stage fails and its sibling
Deep-Value stage succeeds, both still execute exactly once, and the CIO
synthesis stage — whose inputs include both — still runs exactly once: it
is handed the failed stage's `[red]AI Analysis Failed: ...[/red]`
placeholder string as its `agent1_analysis` input (and the sibling's text
as `agent2_analysis`).  Failure is represented by a placeholder string
consumed downstream, not by marking dependants `Failed` and skipping
them. -/
theorem c1_pipeline (env : String → Option String) (envX : Option String)
    (seAlpha seValue seGoogle : CS.StageEnv) (callX : Except String String)
    (vet : String → Except String String) (seCio : CS.StageEnv)
    (fc cc atc k e pa v pv : String) (R : CS.PipelineResult)
    (hk : CS.getClient env = some k)
    (hpa : seAlpha.promptLoad = Except.ok pa)
    (hga : CS.stageGenResult seAlpha "gemini-2.0-flash" pa = Except.error e)
    (hpv : seValue.promptLoad = Except.ok pv)
    (hgv : CS.stageGenResult seValue "gemini-2.0-flash" pv = Except.ok v)
    (hR : R = CS.main_ai_pipeline env envX seAlpha seValue seGoogle callX vet
      seCio fc cc atc) :
    R.analysisAlpha = "[red]AI Analysis Failed: " ++ e ++ "[/red]" ∧
    R.analysisValue = v ∧
    R.cioInput.agent1Analysis = "[red]AI Analysis Failed: " ++ e ++ "[/red]" ∧
    R.cioInput.agent2Analysis = v ∧
    "cio" ∈ R.executed ∧
    R.executed.count "alpha" = 1 ∧ R.executed.count "value" = 1 ∧
    R.executed.count "google" = 1 ∧ R.executed.count "x" = 1 ∧
    R.executed.count "cio" = 1 := by
  subst hR
  have ha := alpha_fail_placeholder env seAlpha (fc ++ "\n\n" ++ cc) k pa e hk hpa hga
  have hv := value_ok_text env seValue (fc ++ "\n\n" ++ cc) k pv v hk hpv hgv
  simp only [CS.main_ai_pipeline]
  refine ⟨ha, hv, ha, hv, ?_, ?_, ?_, ?_, ?_, ?_⟩ <;> (split <;> decide)

/-- Witness for C1: a concrete pipeline in which the Alpha stage's call
raises `boom` and the Value stage succeeds. -/
theorem c1_pipeline_witness :
    (CS.getClient CS.wEnv = some "test-key" ∧
     CS.wSeBoom.promptLoad = Except.ok "PROMPT" ∧
     CS.stageGenResult CS.wSeBoom "gemini-2.0-flash" "PROMPT" = Except.error "boom" ∧
     (CS.wSeOk "2. [NVDA]").promptLoad = Except.ok "PROMPT" ∧
     CS.stageGenResult (CS.wSeOk "2. [NVDA]") "gemini-2.0-flash" "PROMPT" =
       Except.ok "2. [NVDA]") ∧
    ((CS.main_ai_pipeline CS.wEnv (some "xk") CS.wSeBoom (CS.wSeOk "2. [NVDA]")
        (CS.wSeOk "G") (Except.ok "X") (fun t => Except.ok ("ok " ++ t))
        (CS.wSeOk "CIO ORDERS") "FUND" "CEIL" "ATK").cioInput.agent1Analysis =
      "[red]AI Analysis Failed: " ++ "boom" ++ "[/red]" ∧
     (CS.main_ai_pipeline CS.wEnv (some "xk") CS.wSeBoom (CS.wSeOk "2. [NVDA]")
        (CS.wSeOk "G") (Except.ok "X") (fun t => Except.ok ("ok " ++ t))
        (CS.wSeOk "CIO ORDERS") "FUND" "CEIL" "ATK").cioInput.agent2Analysis =
      "2. [NVDA]") :=
  ⟨⟨by decide, by decide, by decide, by decide, by decide⟩,
   (fun h =>
     ⟨h.2.2.1, h.2.2.2.1⟩)
   (c1_pipeline CS.wEnv (some "xk") CS.wSeBoom (CS.wSeOk "2. [NVDA]")
      (CS.wSeOk "G") (Except.ok "X") (fun t => Except.ok ("ok " ++ t))
      (CS.wSeOk "CIO ORDERS") "FUND" "CEIL" "ATK" "test-key" "boom" "PROMPT"
      "2. [NVDA]" "PROMPT" _ (by decide) (by decide) (by decide) (by decide)
      (by decide) rfl)⟩

/-- Counterexample for C1 as stated: with the Alpha stage failing
(`boom`) and every other stage succeeding, the CIO stage *does* run — it
produces its call's text `CIO ORDERS` — and the failed stage's error text
is passed to it as the `agent1_analysis` input as if it were a valid
result. -/
theorem c1_counterexample :
    (CS.main_ai_pipeline CS.wEnv (some "xk") CS.wSeBoom (CS.wSeOk "2. [NVDA]")
        (CS.wSeOk "G") (Except.ok "X") (fun t => Except.ok ("ok " ++ t))
        (CS.wSeOk "CIO ORDERS") "FUND" "CEIL" "ATK").cioInput.agent1Analysis =
      "[red]AI Analysis Failed: boom[/red]" ∧
    (CS.main_ai_pipeline CS.wEnv (some "xk") CS.wSeBoom (CS.wSeOk "2. [NVDA]")
        (CS.wSeOk "G") (Except.ok "X") (fun t => Except.ok ("ok " ++ t))
        (CS.wSeOk "CIO ORDERS") "FUND" "CEIL" "ATK").analysisCio = "CIO ORDERS" ∧
    "cio" ∈ (CS.main_ai_pipeline CS.wEnv (some "xk") CS.wSeBoom
        (CS.wSeOk "2. [NVDA]") (CS.wSeOk "G") (Except.ok "X")
        (fun t => Except.ok ("ok " ++ t)) (CS.wSeOk "CIO ORDERS")
        "FUND" "CEIL" "ATK").executed := by
  refine ⟨by decide, by decide, by decide⟩

/-! ## Claim C2 -/

/-- The retry loop makes at most `k + fuel` attempts. -/
theorem generateLoop_attempts_le (att : ℕ → CS.GenAttempt) (jitter : ℕ → ℚ)
    (m c : String) :
    ∀ (fuel k : ℕ) (el : ℚ) (sl : List ℚ),
      (CS.generateLoop att jitter m c fuel k el sl).attemptsMade ≤ k + fuel := by
  intro fuel
  induction fuel with
  | zero => intro k el sl; simp [CS.generateLoop]
  | succ n ih =>
    intro k el sl
    rw [CS.generateLoop]
    cases (att k).outcome with
    | success text => simp
    | failure e =>
      dsimp only
      split
      · exact le_trans (ih (k + 1) _ _) (by omega)
      · simp

/-- C2 (confirmed): at most four total attempts per logical call; under
consecutive rate-limited failures the three backoff sleeps are
`2·2^(k-1) + jitter` seconds — in `[2,3)`, `[4,5)`, `[8,9)` for jitter in
`[0,1)` — and the fourth rate-limited failure is raised terminally with no
further sleep. -/
theorem c2_retry_policy :
    (∀ (att : ℕ → CS.GenAttempt) (jitter : ℕ → ℚ) (m c : String),
      (CS.generate_with_log att jitter m c).attemptsMade ≤ 4) ∧
    (∀ (att : ℕ → CS.GenAttempt) (jitter : ℕ → ℚ) (m c : String)
        (err : ℕ → String),
      (∀ k, k ≤ 3 → (att k).outcome = CS.GenOutcome.failure (err k) ∧
        CS.isRateLimitError (err k) = true) →
      (∀ k, 0 ≤ jitter k ∧ jitter k < 1) →
      (CS.generate_with_log att jitter m c).attemptsMade = 4 ∧
      (CS.generate_with_log att jitter m c).result = Except.error (err 3) ∧
      (CS.generate_with_log att jitter m c).sleeps =
        [2 + jitter 0, 4 + jitter 1, 8 + jitter 2] ∧
      (2 ≤ 2 + jitter 0 ∧ 2 + jitter 0 < 3) ∧
      (4 ≤ 4 + jitter 1 ∧ 4 + jitter 1 < 5) ∧
      (8 ≤ 8 + jitter 2 ∧ 8 + jitter 2 < 9)) := by
  constructor
  · intro att jitter m c
    exact generateLoop_attempts_le att jitter m c (CS.maxRetries + 1) 0 0 []
  · intro att jitter m c err h hj
    obtain ⟨h0o, h0r⟩ := h 0 (by omega)
    obtain ⟨h1o, h1r⟩ := h 1 (by omega)
    obtain ⟨h2o, h2r⟩ := h 2 (by omega)
    obtain ⟨h3o, h3r⟩ := h 3 (by omega)
    have step : CS.generate_with_log att jitter m c =
        CS.generateLoop att jitter m c 4 0 0 [] := rfl
    have hcomp : (CS.generate_with_log att jitter m c).attemptsMade = 4 ∧
        (CS.generate_with_log att jitter m c).result = Except.error (err 3) ∧
        (CS.generate_with_log att jitter m c).sleeps =
          [2 + jitter 0, 4 + jitter 1, 8 + jitter 2] := by
      rw [step]
      simp only [CS.generateLoop, h0o, h0r, h1o, h1r, h2o, h2r, h3o, h3r,
        CS.maxRetries, CS.baseDelay]
      norm_num
    exact ⟨hcomp.1, hcomp.2.1, hcomp.2.2,
      ⟨by linarith [(hj 0).1], by linarith [(hj 0).2]⟩,
      ⟨by linarith [(hj 1).1], by linarith [(hj 1).2]⟩,
      ⟨by linarith [(hj 2).1], by linarith [(hj 2).2]⟩⟩

/-- Witness for C2: four consecutive `429 RESOURCE_EXHAUSTED` failures
with zero jitter. -/
theorem c2_retry_policy_witness :
    (∀ k, k ≤ 3 → (CS.wAttRL k).outcome =
        CS.GenOutcome.failure "429 RESOURCE_EXHAUSTED" ∧
      CS.isRateLimitError "429 RESOURCE_EXHAUSTED" = true) ∧
    (∀ k, (0 : ℚ) ≤ CS.wJitter0 k ∧ CS.wJitter0 k < 1) ∧
    ((CS.generate_with_log CS.wAttRL CS.wJitter0 "m" "c").attemptsMade = 4 ∧
     (CS.generate_with_log CS.wAttRL CS.wJitter0 "m" "c").result =
       Except.error "429 RESOURCE_EXHAUSTED" ∧
     (CS.generate_with_log CS.wAttRL CS.wJitter0 "m" "c").sleeps =
       [2 + CS.wJitter0 0, 4 + CS.wJitter0 1, 8 + CS.wJitter0 2]) :=
  ⟨fun _ _ => ⟨rfl, by decide⟩,
   fun _ => ⟨le_refl 0, zero_lt_one⟩,
   (fun r => ⟨r.1, r.2.1, r.2.2.1⟩)
     (c2_retry_policy.2 CS.wAttRL CS.wJitter0 "m" "c"
       (fun _ => "429 RESOURCE_EXHAUSTED")
       (fun _ _ => ⟨rfl,
         show CS.isRateLimitError "429 RESOURCE_EXHAUSTED" = true by decide⟩)
       (fun _ => ⟨le_refl 0, zero_lt_one⟩))⟩

/-! ## Claim C8 -/

/-- Loop invariant for `generateLoop`: starting at attempt `k ≤ 3` with
enough fuel to finish (`k + fuel = 4`), exactly one record is produced at
the terminal outcome; its latency is the whole elapsed time, which is the
sum of the durations of all attempts made plus all backoff sleeps. -/
theorem generateLoop_record_inv (att : ℕ → CS.GenAttempt) (jitter : ℕ → ℚ)
    (m c : String) :
    ∀ (fuel k : ℕ) (el : ℚ) (sl : List ℚ), k + fuel = 4 → k ≤ 3 →
      ∃ r ns,
        (CS.generateLoop att jitter m c fuel k el sl).records = [r] ∧
        r.latencyMs =
          ⌊(CS.generateLoop att jitter m c fuel k el sl).elapsed * 1000⌋ ∧
        r.status = (match (CS.generateLoop att jitter m c fuel k el sl).result with
                    | Except.ok _ => "200 OK"
                    | Except.error _ => "ERROR") ∧
        (CS.generateLoop att jitter m c fuel k el sl).sleeps = sl ++ ns ∧
        (CS.generateLoop att jitter m c fuel k el sl).elapsed =
          el + (∑ i ∈ Finset.Ico k
            (CS.generateLoop att jitter m c fuel k el sl).attemptsMade,
              (att i).duration) + ns.sum ∧
        k < (CS.generateLoop att jitter m c fuel k el sl).attemptsMade := by
  intro fuel
  induction fuel with
  | zero => intro k el sl hk hk3; omega
  | succ n ih =>
    intro k el sl hk hk3
    rw [CS.generateLoop]
    cases houtcome : (att k).outcome with
    | success text =>
      refine ⟨_, [], rfl, rfl, rfl, by simp, ?_, by simp⟩
      simp [Nat.Ico_succ_singleton]
    | failure e =>
      dsimp only
      split
      case isTrue hcond =>
        simp only [Bool.and_eq_true, decide_eq_true_eq, CS.maxRetries] at hcond
        obtain ⟨r, ns, hr, hlat, hst, hsl, hel, hlt⟩ :=
          ih (k + 1) (el + (att k).duration + (CS.baseDelay * 2 ^ k + jitter k))
            (sl ++ [CS.baseDelay * 2 ^ k + jitter k]) (by omega) (by omega)
        refine ⟨r, (CS.baseDelay * 2 ^ k + jitter k) :: ns, hr, hlat, hst, ?_, ?_, by omega⟩
        · rw [hsl, List.append_assoc]
          rfl
        · rw [hel]
          conv_rhs => rw [Finset.sum_eq_sum_Ico_succ_bot (Nat.lt_of_succ_lt hlt)]
          simp only [List.sum_cons]
          ring
      case isFalse =>
        refine ⟨_, [], rfl, rfl, rfl, by simp, ?_, by simp⟩
        simp [Nat.Ico_succ_singleton]

/-- C8 (amended): every logical call emits exactly one record at its
terminal outcome, whose status matches the result; but the recorded
latency is the *cumulative* wall-clock time since the first attempt
started — the sum of every attempt's duration plus every backoff sleep —
not only the final attempt's latency. -/
theorem c8_call_record (att : ℕ → CS.GenAttempt) (jitter : ℕ → ℚ)
    (m c : String) :
    ∃ r, (CS.generate_with_log att jitter m c).records = [r] ∧
      r.latencyMs = ⌊(CS.generate_with_log att jitter m c).elapsed * 1000⌋ ∧
      r.status = (match (CS.generate_with_log att jitter m c).result with
                  | Except.ok _ => "200 OK"
                  | Except.error _ => "ERROR") ∧
      (CS.generate_with_log att jitter m c).elapsed =
        (∑ i ∈ Finset.range
            (CS.generate_with_log att jitter m c).attemptsMade,
          (att i).duration) +
        (CS.generate_with_log att jitter m c).sleeps.sum := by
  obtain ⟨r, ns, hr, hlat, hst, hsl, hel, -⟩ :=
    generateLoop_record_inv att jitter m c 4 0 0 [] rfl (by omega)
  refine ⟨r, hr, hlat, hst, ?_⟩
  have hsl' : (CS.generate_with_log att jitter m c).sleeps = ns := by
    simpa using hsl
  rw [Finset.range_eq_Ico, hsl']
  simpa using hel

/-- Counterexample for C8 as stated: a 5-second rate-limited failure, a
2-second backoff sleep, then a 1-second successful attempt: the single
record's latency is 8000 ms — the cumulative time — not the 1000 ms of the
final attempt alone. -/
theorem c8_counterexample :
    ∃ r, (CS.generate_with_log CS.wAttC8 CS.wJitter0 "m" "c").records = [r] ∧
      r.latencyMs = 8000 ∧ (CS.wAttC8 1).duration = 1 ∧
      (8000 : ℤ) ≠ ⌊((CS.wAttC8 1).duration * 1000 : ℚ)⌋ := by
  have h429 : CS.isRateLimitError "429" = true := by decide
  have htr : CS.generate_with_log CS.wAttC8 CS.wJitter0 "m" "c" =
      CS.generateLoop CS.wAttC8 CS.wJitter0 "m" "c" 4 0 0 [] := rfl
  have hstep : CS.generateLoop CS.wAttC8 CS.wJitter0 "m" "c" 4 0 0 [] =
      { sleeps := [2],
        records := [{ model := "m", requestDigest := CS.requestDigestOf "c",
                      status := "200 OK", latencyMs := 8000,
                      responseDigest := some (CS.responseDigestOf "fine"),
                      errorDetail := none }],
        attemptsMade := 2, elapsed := 8, result := Except.ok "fine" } := by
    simp only [CS.generateLoop, CS.wAttC8, CS.wJitter0, h429, CS.maxRetries,
      CS.baseDelay]
    norm_num [h429]
  rw [htr, hstep]
  refine ⟨_, rfl, rfl, rfl, by norm_num [CS.wAttC8]⟩

/-! ## Claim C9 -/

/-- C9 (confirmed): a failure not classified as rate-limited is raised
immediately — one attempt, zero sleeps, one record — and a missing
`GEMINI_API_KEY` is detected before any call: the stage fails fast having
made no remote call at all. -/
theorem c9_fail_fast :
    (∀ (att : ℕ → CS.GenAttempt) (jitter : ℕ → ℚ) (m c e : String),
      (att 0).outcome = CS.GenOutcome.failure e →
      CS.isRateLimitError e = false →
      (CS.generate_with_log att jitter m c).result = Except.error e ∧
      (CS.generate_with_log att jitter m c).attemptsMade = 1 ∧
      (CS.generate_with_log att jitter m c).sleeps = [] ∧
      (CS.generate_with_log att jitter m c).records.length = 1) ∧
    (∀ (env : String → Option String) (se : CS.StageEnv) (rc : String),
      env "GEMINI_API_KEY" = none →
      CS.analyze_concentrated_alpha env se rc =
        ("[red]Error: GEMINI_API_KEY not found.[/red]", none)) := by
  constructor
  · intro att jitter m c e ho hrl
    have step : CS.generate_with_log att jitter m c =
        CS.generateLoop att jitter m c 4 0 0 [] := rfl
    rw [step, CS.generateLoop, ho]
    simp [hrl]
  · intro env se rc henv
    unfold CS.analyze_concentrated_alpha CS.getClient
    rw [henv]

/-- Witness for C9: the concrete `boom` failure raises at once, and an
environment with no key makes no call. -/
theorem c9_fail_fast_witness :
    ((CS.wAttBoom 0).outcome = CS.GenOutcome.failure "boom" ∧
     CS.isRateLimitError "boom" = false ∧
     (CS.generate_with_log CS.wAttBoom CS.wJitter0 "m" "c").result =
       Except.error "boom" ∧
     (CS.generate_with_log CS.wAttBoom CS.wJitter0 "m" "c").attemptsMade = 1 ∧
     (CS.generate_with_log CS.wAttBoom CS.wJitter0 "m" "c").sleeps = []) ∧
    ((fun _ : String => (none : Option String)) "GEMINI_API_KEY" = none ∧
     CS.analyze_concentrated_alpha (fun _ => none) CS.wSeBoom "rc" =
       ("[red]Error: GEMINI_API_KEY not found.[/red]", none)) :=
  ⟨⟨rfl, by decide,
    (fun r => ⟨r.1, r.2.1, r.2.2.1⟩)
      (c9_fail_fast.1 CS.wAttBoom CS.wJitter0 "m" "c" "boom" rfl (by decide))⟩,
   ⟨rfl, c9_fail_fast.2 (fun _ => none) CS.wSeBoom "rc" rfl⟩⟩

/-! ## Scanner lemmas -/

/-- Any sum of the six fixed awards is at most 100. -/
theorem awards_le_100 (b1 b2 b3 b4 b5 b6 : Bool) :
    (if b1 then 40 else 0) + (if b2 then 20 else 0) + (if b3 then 10 else 0) +
      (if b4 then 10 else 0) + (if b5 then 10 else 0) + (if b6 then 10 else 0) ≤
      100 := by
  cases b1 <;> cases b2 <;> cases b3 <;> cases b4 <;> cases b5 <;> cases b6 <;>
    decide

/-- The engine's conviction score never exceeds 100. -/
theorem analyze_breakout_score_le {f : CS.Frame} {d : CS.BreakoutDict}
    (h : CS.analyze_breakout f = Except.ok (some d)) : d.score ≤ 100 := by
  simp only [CS.analyze_breakout] at h
  split at h
  · simp at h
  · split at h
    · simp at h
    · obtain rfl : _ = d := by simpa using h
      exact awards_le_100 _ _ _ _ _ _

/-- A produced snapshot scores at least 20, at most 100, and carries its
ticker. -/
theorem analyze_ticker_spec {fetch : String → Except String CS.Frame}
    {category : Option String} {t : String} {s : CS.Snapshot}
    (h : CS.analyze_ticker fetch category t = Except.ok (some s)) :
    20 ≤ s.score ∧ s.score ≤ 100 ∧ s.ticker = t ∧ s.category = category := by
  unfold CS.analyze_ticker at h
  split at h
  · simp at h
  · split at h
    case h_1 => simp at h
    case h_2 => simp at h
    case h_3 d hb =>
      split at h
      · simp at h
      · rename_i hscore
        obtain rfl : _ = s := by simpa using h
        refine ⟨?_, ?_, rfl, rfl⟩
        · show 20 ≤ d.score
          omega
        · show d.score ≤ 100
          exact analyze_breakout_score_le hb

/-- Membership in a descending insertion. -/
theorem mem_insertDesc (x a : CS.Snapshot) :
    ∀ l, a ∈ CS.insertDesc x l ↔ a = x ∨ a ∈ l := by
  intro l
  induction l with
  | nil => simp [CS.insertDesc]
  | cons y ys ih =>
    rw [CS.insertDesc]
    split
    · simp [or_comm, or_left_comm]
    · simp only [List.mem_cons, ih]
      tauto

/-- Descending insertion preserves descending sortedness. -/
theorem insertDesc_sorted (x : CS.Snapshot) :
    ∀ l, l.Pairwise (fun a b : CS.Snapshot => b.score ≤ a.score) →
      (CS.insertDesc x l).Pairwise (fun a b : CS.Snapshot => b.score ≤ a.score) := by
  intro l
  induction l with
  | nil => intro _; simp [CS.insertDesc]
  | cons y ys ih =>
    intro h
    rw [List.pairwise_cons] at h
    rw [CS.insertDesc]
    split
    case isTrue hlt =>
      refine List.pairwise_cons.mpr ⟨?_, List.pairwise_cons.mpr h⟩
      intro b hb
      rcases List.mem_cons.mp hb with rfl | hb
      · omega
      · have := h.1 b hb
        omega
    case isFalse hge =>
      refine List.pairwise_cons.mpr ⟨?_, ih h.2⟩
      intro b hb
      rcases (mem_insertDesc x b ys).mp hb with rfl | hb
      · omega
      · exact h.1 b hb

/-- Membership through the sorting fold. -/
theorem mem_sortFold (a : CS.Snapshot) :
    ∀ (l acc : List CS.Snapshot),
      a ∈ l.foldl (fun acc x => CS.insertDesc x acc) acc ↔ a ∈ acc ∨ a ∈ l := by
  intro l
  induction l with
  | nil => simp
  | cons x xs ih =>
    intro acc
    rw [List.foldl_cons, ih, mem_insertDesc]
    simp only [List.mem_cons]
    tauto

/-- The sorting fold returns a descending-sorted list. -/
theorem sortFold_sorted :
    ∀ (l acc : List CS.Snapshot),
      acc.Pairwise (fun a b : CS.Snapshot => b.score ≤ a.score) →
      (l.foldl (fun acc x => CS.insertDesc x acc) acc).Pairwise
        (fun a b : CS.Snapshot => b.score ≤ a.score) := by
  intro l
  induction l with
  | nil => intro acc h; simpa using h
  | cons x xs ih =>
    intro acc h
    rw [List.foldl_cons]
    exact ih _ (insertDesc_sorted x acc h)

/-- Every member of the scan output is produced by `analyze_ticker` on a
ticker in the completion order. -/
theorem mem_scanCore {fetch : String → Except String CS.Frame}
    {category : Option String} {order : List String} {s : CS.Snapshot}
    (h : s ∈ CS.scanCore fetch category order) :
    ∃ t, t ∈ order ∧ CS.analyze_ticker fetch category t = Except.ok (some s) := by
  unfold CS.scanCore CS.sortByScoreDesc at h
  rw [mem_sortFold] at h
  rcases h with h | h
  · simp at h
  · rw [List.mem_filterMap] at h
    obtain ⟨t, ht, hf⟩ := h
    refine ⟨t, ht, ?_⟩
    revert hf
    split
    case h_1 s' heq =>
      intro hf
      obtain rfl : s' = s := by simpa using hf
      exact heq
    case h_2 =>
      intro hf
      simp at hf

/-! ## Claim C3 -/

/-- C3 (confirmed): for every market-data oracle and completion order, both
scan engines return only snapshots with `20 ≤ score ≤ 100`, sorted by
score in descending order. -/
theorem c3_scan_invariants (fetch : String → Except String CS.Frame)
    (order : List String) :
    ((CS.StocksUs.scan_tickers fetch order).all
      (fun s => decide (20 ≤ s.score) && decide (s.score ≤ 100))) = true ∧
    (CS.StocksUs.scan_tickers fetch order).Pairwise
      (fun a b : CS.Snapshot => b.score ≤ a.score) ∧
    ((CS.StocksIntl.scan_tickers fetch order).all
      (fun s => decide (20 ≤ s.score) && decide (s.score ≤ 100))) = true ∧
    (CS.StocksIntl.scan_tickers fetch order).Pairwise
      (fun a b : CS.Snapshot => b.score ≤ a.score) := by
  have hall : ∀ category, ((CS.scanCore fetch category order).all
      (fun s => decide (20 ≤ s.score) && decide (s.score ≤ 100))) = true := by
    intro category
    rw [List.all_eq_true]
    intro s hs
    obtain ⟨t, -, hok⟩ := mem_scanCore hs
    obtain ⟨h1, h2, -, -⟩ := analyze_ticker_spec hok
    simp [h1, h2]
  have hsorted : ∀ category, (CS.scanCore fetch category order).Pairwise
      (fun a b : CS.Snapshot => b.score ≤ a.score) := by
    intro category
    unfold CS.scanCore CS.sortByScoreDesc
    exact sortFold_sorted _ [] (by simp)
  exact ⟨hall none, hsorted none, hall (some "International"),
    hsorted (some "International")⟩

/-! ## Claim C10 -/

/-- A fetch that raises or yields fewer than 50 observations gives no
market data. -/
theorem get_market_data_none {res : Except String CS.Frame}
    (h : ∀ f, res = Except.ok f → f.length < 50) :
    CS.get_market_data res = none := by
  unfold CS.get_market_data
  cases res with
  | error e => rfl
  | ok df =>
    have hlt := h df rfl
    show (if df.isEmpty = true then none
      else if df.length < 50 then none else some df) = none
    by_cases hemp : df.isEmpty = true
    · rw [if_pos hemp]
    · rw [if_neg hemp, if_pos hlt]

/-- Under the same hypothesis the ticker produces no snapshot. -/
theorem analyze_ticker_none {fetch : String → Except String CS.Frame}
    {category : Option String} {sym : String}
    (h : ∀ f, fetch sym = Except.ok f → f.length < 50) :
    CS.analyze_ticker fetch category sym = Except.ok none := by
  unfold CS.analyze_ticker
  rw [get_market_data_none h]

/-- C10 (confirmed): a symbol whose history fetch raises or yields fewer
than 50 observations never appears in the scan output, and removing it
from the universe leaves the scan of the remaining symbols unchanged —
for both scan engines. -/
theorem c10_insufficient_history (fetch : String → Except String CS.Frame)
    (sym : String) (order pre post : List String)
    (h : ∀ f, fetch sym = Except.ok f → f.length < 50) :
    sym ∉ (CS.StocksUs.scan_tickers fetch order).map CS.Snapshot.ticker ∧
    CS.StocksUs.scan_tickers fetch (pre ++ sym :: post) =
      CS.StocksUs.scan_tickers fetch (pre ++ post) ∧
    sym ∉ (CS.StocksIntl.scan_tickers fetch order).map CS.Snapshot.ticker ∧
    CS.StocksIntl.scan_tickers fetch (pre ++ sym :: post) =
      CS.StocksIntl.scan_tickers fetch (pre ++ post) := by
  have hmem : ∀ category,
      sym ∉ (CS.scanCore fetch category order).map CS.Snapshot.ticker := by
    intro category hmem
    rw [List.mem_map] at hmem
    obtain ⟨s, hs, hticker⟩ := hmem
    obtain ⟨t, -, hok⟩ := mem_scanCore hs
    obtain ⟨-, -, hst, -⟩ := analyze_ticker_spec hok
    have ht : t = sym := hst.symm.trans hticker
    rw [ht, analyze_ticker_none h] at hok
    simp at hok
  have hdrop : ∀ category,
      CS.scanCore fetch category (pre ++ sym :: post) =
        CS.scanCore fetch category (pre ++ post) := by
    intro category
    unfold CS.scanCore
    congr 1
    rw [List.filterMap_append, List.filterMap_append, List.filterMap_cons]
    rw [analyze_ticker_none h]
  exact ⟨hmem none, hdrop none, hmem (some "International"),
    hdrop (some "International")⟩

/-- Witness for C10: the 10-row `"BAD"` history is excluded and its
presence does not change the scan of the rest. -/
theorem c10_insufficient_history_witness :
    (∀ f, CS.wFetch "BAD" = Except.ok f → f.length < 50) ∧
    "BAD" ∉ (CS.StocksUs.scan_tickers CS.wFetch ["BAD"]).map CS.Snapshot.ticker ∧
    CS.StocksUs.scan_tickers CS.wFetch (["T"] ++ "BAD" :: []) =
      CS.StocksUs.scan_tickers CS.wFetch (["T"] ++ []) := by
  have h : ∀ f, CS.wFetch "BAD" = Except.ok f → f.length < 50 := by
    intro f hf
    obtain rfl : CS.wFrame10 = f := by simpa [CS.wFetch] using hf
    simp [CS.wFrame10]
  have main := c10_insufficient_history CS.wFetch "BAD" ["BAD"] ["T"] [] h
  exact ⟨h, main.1, main.2.1⟩

/-! ## Claim C4 -/

/-- The rolling max column at the last index is the max over the last `w`
entries (NaN when fewer than `w` exist). -/
theorem rollingMaxAt_last (w : ℕ) (xs : List ℚ) (n : ℕ) (hn : xs.length = n)
    (hpos : 1 ≤ n) :
    CS.rollingMaxAt w xs (n - 1) =
      if w ≤ n then (xs.drop (n - w)).max? else none := by
  subst hn
  unfold CS.rollingMaxAt
  rw [Nat.sub_add_cancel hpos, List.take_length xs]

/-- The rolling mean column at the last index is the mean of the last `w`
entries (NaN when fewer than `w` exist). -/
theorem rollingMeanAt_last (w : ℕ) (xs : List ℚ) (n : ℕ) (hn : xs.length = n)
    (hpos : 1 ≤ n) :
    CS.rollingMeanAt w xs (n - 1) =
      if w ≤ n then some ((xs.drop (n - w)).sum / w) else none := by
  subst hn
  unfold CS.rollingMeanAt
  rw [Nat.sub_add_cancel hpos, List.take_length xs]

/-- The last entry of a series belongs to its last `w`-window. -/
theorem getD_last_mem_window (w : ℕ) (xs : List ℚ) (hw : 1 ≤ w)
    (hlen : w ≤ xs.length) :
    xs.getD (xs.length - 1) 0 ∈ xs.drop (xs.length - w) := by
  have hub : xs.length - 1 < xs.length := by omega
  rw [List.getD_eq_getElem xs 0 hub]
  have hj : w - 1 < (xs.drop (xs.length - w)).length := by
    rw [List.length_drop]; omega
  have heq : (xs.drop (xs.length - w))[w - 1] = xs[xs.length - 1] := by
    rw [List.getElem_drop]
    congr 1
    omega
  rw [← heq]
  exact List.getElem_mem hj

/-- The specification-side score is bounded by 100. -/
theorem claimScore_le_100 (f : CS.Frame) : CS.claimScore f ≤ 100 := by
  simp only [CS.claimScore]
  split <;> split <;> split <;> split <;> split <;> split <;> omega

/-- C4 (confirmed): on any history of at least two rows with non-negative
volumes, the engine produces a score that is exactly the sum of the fixed
awards the specification lists — +40 for a close at ≥ 98 % of the
252-period maximum high, +20 for relative volume above 1.5, +10 for RSI
above 60, +10 each for a close above the 20- and 50-period simple moving
averages, +10 for volume above 1 000 000 — and never exceeds 100. -/
theorem c4_conviction_score (f : CS.Frame)
    (hlen : 2 ≤ f.length) (hvol : ∀ r ∈ f, 0 ≤ r.volume) :
    ∃ d, CS.analyze_breakout f = Except.ok (some d) ∧
      d.score = CS.claimScore f ∧ d.score ≤ 100 ∧ CS.claimScore f ≤ 100 := by
  have hn0 : ¬(f.length = 0) := by omega
  have hn1 : ¬(f.length = 1) := by omega
  have hpos : 1 ≤ f.length := by omega
  have hlh : (f.map CS.Row.high).length = f.length := by simp
  have hlc : (f.map CS.Row.close).length = f.length := by simp
  have hlv : (f.map CS.Row.volume).length = f.length := by simp
  simp only [CS.analyze_breakout, if_neg hn0, if_neg hn1, CS.calculate_technicals]
  refine ⟨_, rfl, ?_, awards_le_100 _ _ _ _ _ _, claimScore_le_100 f⟩
  simp only [CS.claimScore, CS.lastWindow, hlh, hlc, hlv]
  -- volume window facts (used when the 20-period average volume is 0)
  have hvnn : ∀ x ∈ (f.map CS.Row.volume).drop (f.length - 20), 0 ≤ x := by
    intro x hx
    obtain ⟨r, hr, rfl⟩ := List.mem_map.mp (List.mem_of_mem_drop hx)
    exact hvol r hr
  rcases le_or_lt 252 f.length with h252 | h252 <;>
    rcases le_or_lt 50 f.length with h50 | h50 <;>
      rcases le_or_lt 20 f.length with h20 | h20 <;>
        try omega
  · -- 252 ≤ n (hence 50 ≤ n and 20 ≤ n): every indicator is defined
    have hwne : (List.drop (f.length - 252) (f.map CS.Row.high)) ≠ [] := by
      have hl : (List.drop (f.length - 252) (f.map CS.Row.high)).length = 252 := by
        rw [List.length_drop, hlh]; omega
      intro hnil
      rw [hnil] at hl
      simp at hl
    obtain ⟨m, hm⟩ : ∃ m,
        (List.drop (f.length - 252) (f.map CS.Row.high)).max? = some m := by
      cases hx : (List.drop (f.length - 252) (f.map CS.Row.high)).max? with
      | none => exact absurd (List.max?_eq_none_iff.mp hx) hwne
      | some m => exact ⟨m, rfl⟩
    simp only [rollingMaxAt_last 252 _ _ hlh hpos,
      rollingMeanAt_last 20 _ _ hlc hpos, rollingMeanAt_last 50 _ _ hlc hpos,
      rollingMeanAt_last 20 _ _ hlv hpos, if_pos h252, if_pos h50, if_pos h20,
      hm, h252, h50, h20, true_and, if_true, Nat.cast_ofNat, Option.getD_some,
      decide_eq_true_eq]
    by_cases hav :
        (List.drop (f.length - 20) (f.map CS.Row.volume)).sum / 20 = 0
    · have hsum0 : (List.drop (f.length - 20) (f.map CS.Row.volume)).sum = 0 := by
        field_simp at hav
        exact hav
      have hvmem : (f.map CS.Row.volume).getD (f.length - 1) 0 ∈
          (f.map CS.Row.volume).drop (f.length - 20) := by
        have hmem := getD_last_mem_window 20 (f.map CS.Row.volume) (by omega)
          (by rw [hlv]; omega)
        rwa [hlv] at hmem
      have hle := List.single_le_sum hvnn _ hvmem
      rw [hsum0] at hle
      have hv0 : (f.map CS.Row.volume).getD (f.length - 1) 0 = 0 :=
        le_antisymm hle (hvnn _ hvmem)
      rw [if_pos hav, hav, hv0]
      norm_num [mul_comm]
    · simp [hav, mul_comm]
  · -- 50 ≤ n < 252: no 52-week ceiling
    have hn252 : ¬(252 ≤ f.length) := by omega
    simp only [rollingMaxAt_last 252 _ _ hlh hpos,
      rollingMeanAt_last 20 _ _ hlc hpos, rollingMeanAt_last 50 _ _ hlc hpos,
      rollingMeanAt_last 20 _ _ hlv hpos,
      if_neg hn252, if_pos h50, if_pos h20,
      hn252, h50, h20, true_and, false_and, if_true,
      if_false, Nat.cast_ofNat, decide_eq_true_eq]
    by_cases hav :
        (List.drop (f.length - 20) (f.map CS.Row.volume)).sum / 20 = 0
    · have hsum0 : (List.drop (f.length - 20) (f.map CS.Row.volume)).sum = 0 := by
        field_simp at hav
        exact hav
      have hvmem : (f.map CS.Row.volume).getD (f.length - 1) 0 ∈
          (f.map CS.Row.volume).drop (f.length - 20) := by
        have hmem := getD_last_mem_window 20 (f.map CS.Row.volume) (by omega)
          (by rw [hlv]; omega)
        rwa [hlv] at hmem
      have hle := List.single_le_sum hvnn _ hvmem
      rw [hsum0] at hle
      have hv0 : (f.map CS.Row.volume).getD (f.length - 1) 0 = 0 :=
        le_antisymm hle (hvnn _ hvmem)
      rw [if_pos hav, hav, hv0]
      norm_num
    · simp [hav]
  · -- 20 ≤ n < 50: no SMA-50 either
    have hn252 : ¬(252 ≤ f.length) := by omega
    have hn50 : ¬(50 ≤ f.length) := by omega
    simp only [rollingMaxAt_last 252 _ _ hlh hpos,
      rollingMeanAt_last 20 _ _ hlc hpos, rollingMeanAt_last 50 _ _ hlc hpos,
      rollingMeanAt_last 20 _ _ hlv hpos,
      if_neg hn252, if_neg hn50, if_pos h20,
      hn252, hn50, h20,
      true_and, false_and, if_true, if_false, Nat.cast_ofNat, decide_eq_true_eq]
    by_cases hav :
        (List.drop (f.length - 20) (f.map CS.Row.volume)).sum / 20 = 0
    · have hsum0 : (List.drop (f.length - 20) (f.map CS.Row.volume)).sum = 0 := by
        field_simp at hav
        exact hav
      have hvmem : (f.map CS.Row.volume).getD (f.length - 1) 0 ∈
          (f.map CS.Row.volume).drop (f.length - 20) := by
        have hmem := getD_last_mem_window 20 (f.map CS.Row.volume) (by omega)
          (by rw [hlv]; omega)
        rwa [hlv] at hmem
      have hle := List.single_le_sum hvnn _ hvmem
      rw [hsum0] at hle
      have hv0 : (f.map CS.Row.volume).getD (f.length - 1) 0 = 0 :=
        le_antisymm hle (hvnn _ hvmem)
      rw [if_pos hav, hav, hv0]
      norm_num
    · simp [hav]
  · -- n < 20: only RSI (n ≥ 14 possible) and the absolute volume test
    have hn252 : ¬(252 ≤ f.length) := by omega
    have hn50 : ¬(50 ≤ f.length) := by omega
    have hn20 : ¬(20 ≤ f.length) := by omega
    simp only [rollingMaxAt_last 252 _ _ hlh hpos,
      rollingMeanAt_last 20 _ _ hlc hpos, rollingMeanAt_last 50 _ _ hlc hpos,
      rollingMeanAt_last 20 _ _ hlv hpos,
      if_neg hn252, if_neg hn50, if_neg hn20,
      hn252, hn50, hn20, false_and, if_true, if_false,
      Nat.cast_ofNat, decide_eq_true_eq]
    simp

/-- Witness for C4 at a concrete two-row history. -/
theorem c4_conviction_score_witness :
    (2 ≤ ([CS.wRow 5, CS.wRow 5] : CS.Frame).length ∧
      ∀ r ∈ ([CS.wRow 5, CS.wRow 5] : CS.Frame), 0 ≤ r.volume) ∧
    ∃ d, CS.analyze_breakout [CS.wRow 5, CS.wRow 5] = Except.ok (some d) ∧
      d.score = CS.claimScore [CS.wRow 5, CS.wRow 5] ∧ d.score ≤ 100 ∧
      CS.claimScore [CS.wRow 5, CS.wRow 5] ≤ 100 :=
  ⟨⟨by decide, by decide⟩,
   c4_conviction_score [CS.wRow 5, CS.wRow 5] (by decide) (by decide)⟩
